import Mathlib

/-!
Shallow embedding of `pilz_industrial_motion_planner::CommandListManager`
(`src/moveit_planners/pilz_industrial_motion_planner/src/command_list_manager.cpp`).

Doubles are modelled as exact rationals (`ℚ`), `size_t` arithmetic with explicit
`% 2^64` where overflow matters, C++ exceptions as `Except`/error values, and
out-of-range container accesses as `Option.none`.  External collaborators
(planning pipeline, trajectory-composition builder, kinematic-model lookups)
are parameters of the embedding, constrained in theorems by their documented
contracts.
-/

namespace PilzCLM

/-- Joint-state fields of a `moveit_msgs::RobotState` message inspected by the
start-state validation (`checkStartStatesOfGroup`). -/
structure JointState where
  name : List String
  position : List ℚ
  velocity : List ℚ
  effort : List ℚ
deriving DecidableEq, Inhabited

/-- `moveit_msgs::RobotState` (only the `joint_state` part is inspected). -/
structure RobotState where
  joint_state : JointState
deriving DecidableEq, Inhabited

/-- The part of `planning_interface::MotionPlanRequest` used by the manager:
group name, start state, and an opaque goal payload. -/
structure MotionPlanRequest where
  group_name : String
  start_state : RobotState
  goal : Nat
deriving DecidableEq, Inhabited

/-- `moveit_msgs::MotionSequenceItem`: a planning request plus a blend radius. -/
structure MotionSequenceItem where
  req : MotionPlanRequest
  blend_radius : ℚ
deriving DecidableEq, Inhabited

/-- A waypoint of a robot trajectory.  `stateMsg` is the result of
`robotStateToRobotStateMsg` on the waypoint, `framePos` is the translation part
of `getFrameTransform` for a given frame name. -/
structure RobotWaypoint where
  stateMsg : RobotState
  framePos : String → ℚ × ℚ × ℚ
deriving Inhabited

/-- `robot_trajectory::RobotTrajectory`: a group name and its waypoints.
`getLastWayPoint` is modelled by `waypoints.getLastD default` (the source
never calls it on an empty trajectory). -/
structure RobotTrajectory where
  group_name : String
  waypoints : List RobotWaypoint
deriving Inhabited

/-- The part of `planning_interface::MotionPlanResponse` kept in the response
container. -/
structure MotionPlanResponse where
  trajectory : RobotTrajectory
  error_code : Int
deriving Inhabited

/-- Result of one `planning_pipeline->generatePlan` call: the C++ boolean
return value, the error code written into `res.error_code.val`, and the
computed trajectory. -/
structure PlanOutcome where
  returned : Bool
  error_code : Int
  trajectory : RobotTrajectory
deriving Inhabited

/-- Modelled from the spec: the kinematic model collaborator exposes, per
group name, whether the group has a kinematic solver (`hasSolver`, from
`tip_frame_getter.h`, not under `src/`) and the group's designated tip frame
(`getSolverTipFrame`). -/
structure RobotModel where
  hasSolver : String → Bool
  tipFrame : String → String

/-- The exceptions thrown by `CommandListManager` (declared in
`command_list_manager.h`); payloads are what the throw sites in the source
pass to the constructors. -/
inductive CLMError where
  | negativeBlendRadius
  | lastBlendRadiusNotZero
  | startStateSet (group : String)
  | planningPipeline (msg : String) (code : Int)
  | overlappingBlendRadii (i : Nat)
deriving DecidableEq

/-- `moveit_msgs::MoveItErrorCodes::SUCCESS`. -/
def SUCCESS : Int := 1

/-- `moveit_msgs::MoveItErrorCodes::FAILURE`. -/
def FAILURE : Int := 99999

/-- `CommandListManager::checkForNegativeRadii`: throws
`NegativeBlendRadiusException` unless every item's blend radius is
non-negative. -/
def checkForNegativeRadii (items : List MotionSequenceItem) : Except CLMError Unit :=
  if items.all (fun it => decide ((0:ℚ) ≤ it.blend_radius)) then .ok () else
    .error .negativeBlendRadius

/-- Modelled from the spec: `checkLastBlendRadiusZero` is declared in
`command_list_manager.h` (not under `src/`); the spec requires rejecting a
request list whose final item has a nonzero blend radius. -/
def checkLastBlendRadiusZero (items : List MotionSequenceItem) : Except CLMError Unit :=
  if (items.getLastD default).blend_radius = 0 then .ok () else
    .error .lastBlendRadiusNotZero

/-- The start-state emptiness test of `checkStartStatesOfGroup`: a start state
is explicit when any of positions, velocities, efforts or names is non-empty. -/
def nonemptyStartState (s : RobotState) : Bool :=
  !(s.joint_state.position.isEmpty && s.joint_state.velocity.isEmpty &&
    s.joint_state.effort.isEmpty && s.joint_state.name.isEmpty)

/-- Loop of `CommandListManager::checkStartStatesOfGroup`, with the
`first_elem` flag made explicit. -/
def checkSSGo (g : String) : List MotionSequenceItem → Bool → Except CLMError Unit
  | [], _ => .ok ()
  | item :: rest, first =>
    if item.req.group_name ≠ g then checkSSGo g rest first
    else if first then checkSSGo g rest false
    else if nonemptyStartState item.req.start_state then .error (.startStateSet g)
    else checkSSGo g rest false

/-- `CommandListManager::checkStartStatesOfGroup`. -/
def checkStartStatesOfGroup (items : List MotionSequenceItem) (g : String) :
    Except CLMError Unit :=
  checkSSGo g items true

/-- `CommandListManager::getGroupNames`: the distinct group names of the list,
in order of first occurrence. -/
def getGroupNames (items : List MotionSequenceItem) : List String :=
  items.foldl
    (fun acc it => if it.req.group_name ∈ acc then acc else acc ++ [it.req.group_name]) []

/-- The per-group iteration of `CommandListManager::checkStartStates`. -/
def checkGroupsGo (items : List MotionSequenceItem) : List String → Except CLMError Unit
  | [] => .ok ()
  | g :: gs =>
    match checkStartStatesOfGroup items g with
    | .error e => .error e
    | .ok _ => checkGroupsGo items gs

/-- `CommandListManager::checkStartStates`: skipped for lists of length at
most one, otherwise checks every group name of the list. -/
def checkStartStates (items : List MotionSequenceItem) : Except CLMError Unit :=
  if items.length ≤ 1 then .ok ()
  else checkGroupsGo items (getGroupNames items)

/-- `CommandListManager::isInvalidBlendRadii`. -/
def isInvalidBlendRadii (model : RobotModel) (itemA itemB : MotionSequenceItem) : Bool :=
  if itemA.blend_radius = 0 then false
  else if itemA.req.group_name ≠ itemB.req.group_name then true
  else if !(model.hasSolver itemA.req.group_name) then true
  else false

/-- `CommandListManager::extractBlendRadii`: `radii` starts as
`items.length` zeros; the loop over `i < radii.size() - 1` writes the
declared radius of item `i` unless `isInvalidBlendRadii` holds for the pair
`(i, i+1)`.  The recursion below walks the adjacent pairs exactly as the loop
does; the final entry is never written and stays zero. -/
def extractBlendRadii (model : RobotModel) : List MotionSequenceItem → List ℚ
  | [] => []
  | [_] => [0]
  | a :: b :: rest =>
    (if isInvalidBlendRadii model a b then 0 else a.blend_radius) ::
      extractBlendRadii model (b :: rest)

/-- `CommandListManager::getPreviousEndState`: reverse scan of the response
container for the most recent response of the given group; returns its
trajectory's last waypoint. -/
def getPreviousEndState (resps : List MotionPlanResponse) (g : String) :
    Option RobotWaypoint :=
  (resps.reverse.find? (fun r => r.trajectory.group_name == g)).map
    (fun r => r.trajectory.waypoints.getLastD default)

/-- `CommandListManager::setStartState`: overwrites the start state with the
message of the previous end state when one exists, otherwise leaves it
unchanged. -/
def setStartState (resps : List MotionPlanResponse) (g : String) (start : RobotState) :
    RobotState :=
  match getPreviousEndState resps g with
  | some w => w.stateMsg
  | none => start

/-- The error code after the `generatePlan` call site: a `false` return value
overwrites the code with `FAILURE`. -/
def effectiveCode (out : PlanOutcome) : Int :=
  if out.returned then out.error_code else FAILURE

/-- The request actually passed to `generatePlan` for one item: the item's
request after the `setStartState` call of the loop body. -/
def resolvedReq (acc : List MotionPlanResponse) (item : MotionSequenceItem) :
    MotionPlanRequest :=
  { item.req with start_state := setStartState acc item.req.group_name item.req.start_state }

/-- The response pushed onto the container after a successful
`generatePlan` call. -/
def mkResponse (out : PlanOutcome) : MotionPlanResponse :=
  { trajectory := out.trajectory, error_code := effectiveCode out }

/-- Loop of `CommandListManager::solveSequenceItems`.  `p` is the external
planning pipeline (indexed by call position), `acc` the response container,
and the second component a ghost trace of the requests passed to
`generatePlan` (the first component matches the source exactly). -/
def solveSeqAux (p : Nat → MotionPlanRequest → PlanOutcome) :
    List MotionSequenceItem → Nat → List MotionPlanResponse → List MotionPlanRequest →
      Except CLMError (List MotionPlanResponse) × List MotionPlanRequest
  | [], _, acc, tr => (.ok acc, tr)
  | item :: rest, k, acc, tr =>
    let req := resolvedReq acc item
    let out := p k req
    if effectiveCode out ≠ SUCCESS then
      (.error (.planningPipeline "Could not solve request\n" (effectiveCode out)), tr ++ [req])
    else
      solveSeqAux p rest (k + 1) (acc ++ [mkResponse out]) (tr ++ [req])

/-- `CommandListManager::solveSequenceItems`. -/
def solveSequenceItems (p : Nat → MotionPlanRequest → PlanOutcome)
    (items : List MotionSequenceItem) :
    Except CLMError (List MotionPlanResponse) × List MotionPlanRequest :=
  solveSeqAux p items 0 [] []

/-- Squared Euclidean distance between two translation vectors. -/
def sqDist (a b : ℚ × ℚ × ℚ) : ℚ :=
  (a.1 - b.1)^2 + (a.2.1 - b.2.1)^2 + (a.2.2 - b.2.2)^2

/-- Translation of the last waypoint's transform for a frame
(`getLastWayPoint().getFrameTransform(frame).translation()`). -/
def lastTipPos (t : RobotTrajectory) (frame : String) : ℚ × ℚ × ℚ :=
  (t.waypoints.getLastD default).framePos frame

/-- `CommandListManager::checkRadiiForOverlap`.  The source compares the
Euclidean norm `‖pA - pB‖ ≤ rA + rB`; over exact rationals this is encoded by
the equivalent test `0 ≤ rA + rB ∧ sqDist pA pB ≤ (rA + rB)^2` (see
`checkRadiiForOverlap_iff_sqrt`). -/
def checkRadiiForOverlap (model : RobotModel) (tA : RobotTrajectory) (rA : ℚ)
    (tB : RobotTrajectory) (rB : ℚ) : Bool :=
  if tA.group_name ≠ tB.group_name then false
  else if rA + rB = 0 then false
  else
    let frame := model.tipFrame tA.group_name
    decide ((0:ℚ) ≤ rA + rB) &&
      decide (sqDist (lastTipPos tA frame) (lastTipPos tB frame) ≤ (rA + rB)^2)

/-- Loop of `CommandListManager::checkForOverlappingRadii`: index `i` runs
while `i < resp_cont.size() - 2`; the fuel argument counts the remaining
iterations. -/
def overlapGo (model : RobotModel) (resps : List MotionPlanResponse) (radii : List ℚ) :
    Nat → Nat → Except CLMError Unit
  | 0, _ => .ok ()
  | fuel + 1, i =>
    if checkRadiiForOverlap model (resps.getD i default).trajectory (radii.getD i 0)
        (resps.getD (i + 1) default).trajectory (radii.getD (i + 1) 0) then
      .error (.overlappingBlendRadii i)
    else overlapGo model resps radii fuel (i + 1)

/-- `CommandListManager::checkForOverlappingRadii`. -/
def checkForOverlappingRadii (model : RobotModel) (resps : List MotionPlanResponse)
    (radii : List ℚ) : Except CLMError Unit :=
  if resps.isEmpty then .ok ()
  else if resps.length < 3 then .ok ()
  else overlapGo model resps radii (resps.length - 2) 0

/-- The append loop of `CommandListManager::solve`: response `i` is appended
with blend radius `radii.at(i - 1)` for `i > 0` and `0` for `i == 0`. -/
def buildAppends (resps : List MotionPlanResponse) (radii : List ℚ) :
    List (RobotTrajectory × ℚ) :=
  (List.range resps.length).map fun i =>
    ((resps.getD i default).trajectory, if 0 < i then radii.getD (i - 1) 0 else 0)

/-- `2^64`, the modulus of `size_t` arithmetic. -/
def U64 : Nat := 18446744073709551616

/-- `size_t` computation of `n - 1`: wraps around to `2^64 - 1` when `n = 0`.
`sizeSub1_eq_mod` proves it equal to the modular formula for every
representable vector size. -/
def sizeSub1 (n : Nat) : Nat := if n = 0 then 18446744073709551615 else n - 1

/-- The waypoint de-duplication loop at the end of `CommandListManager::solve`,
on the times-from-start of one trajectory.  The loop bound
`traj->size() - 1` is `size_t` arithmetic (`sizeSub1`), which underflows to
`2^64 - 1` for an empty trajectory; an out-of-range waypoint access
(`getWayPointDurationFromStart` past the end) is modelled as `none`.  After a
removal the index still advances, exactly as in the source. -/
def dedupLoopM (ts : List ℚ) (i : Nat) : Option (List ℚ) :=
  if i < sizeSub1 ts.length then
    if h : i + 1 < ts.length then
      if ts.getD i 0 = ts.getD (i + 1) 0 then dedupLoopM (ts.eraseIdx (i + 1)) (i + 1)
      else dedupLoopM ts (i + 1)
    else none
  else some ts
termination_by ts.length - i
decreasing_by
  · have := List.length_eraseIdx (l := ts) (i := i + 1)
    simp only [h, if_pos] at this
    omega
  · omega

/-- Result of one `CommandListManager::solve` call: the returned trajectory
container (as per-trajectory time lists), a thrown exception, or undefined
behaviour (out-of-range access in the de-duplication loop). -/
inductive SolveResult where
  | ok (trajs : List (List ℚ))
  | err (e : CLMError)
  | undefinedBehaviour
deriving DecidableEq

/-- `CommandListManager::solve`.  `build` is the external
trajectory-composition builder (`plan_comp_builder_`): it receives the
appended `(trajectory, blend radius)` pairs and returns the built
trajectories as lists of waypoint times-from-start. -/
def solveFull (build : List (RobotTrajectory × ℚ) → List (List ℚ))
    (p : Nat → MotionPlanRequest → PlanOutcome) (model : RobotModel)
    (items : List MotionSequenceItem) : SolveResult :=
  if items.isEmpty then .ok []
  else
    match checkForNegativeRadii items with
    | .error e => .err e
    | .ok _ =>
      match checkLastBlendRadiusZero items with
      | .error e => .err e
      | .ok _ =>
        match checkStartStates items with
        | .error e => .err e
        | .ok _ =>
          match (solveSequenceItems p items).1 with
          | .error e => .err e
          | .ok resps =>
            let radii := extractBlendRadii model items
            match checkForOverlappingRadii model resps radii with
            | .error e => .err e
            | .ok _ =>
              match (build (buildAppends resps radii)).mapM (fun ts => dedupLoopM ts 0) with
              | some out => .ok out
              | none => .undefinedBehaviour

/-- The condition the spec attaches to `StartStateConflictError`: some
occurrence of group `g` other than the first carries an explicit (non-empty)
start state. -/
def laterStartStateOf (items : List MotionSequenceItem) (g : String) : Bool :=
  ((items.filter (fun it => it.req.group_name == g)).drop 1).any
    (fun it => nonemptyStartState it.req.start_state)

/-- Whether a solve result is a `StartStateSetException` failure. -/
def isStartStateConflict : SolveResult → Bool
  | .err (.startStateSet _) => true
  | _ => false

/-! ## Concrete sample data used by witnesses and counterexamples -/

/-- A robot model in which every group has a solver. -/
def trivialModel : RobotModel := { hasSolver := fun _ => true, tipFrame := fun _ => "tip" }

/-- A waypoint whose tip-frame position is the origin for every frame. -/
def originWaypoint : RobotWaypoint := { stateMsg := default, framePos := fun _ => (0, 0, 0) }

/-- A one-waypoint trajectory for a group. -/
def sampleTraj (g : String) : RobotTrajectory := { group_name := g, waypoints := [originWaypoint] }

/-- A sequence item with an empty (implicit) start state. -/
def sampleItem (g : String) (r : ℚ) (goal : Nat) : MotionSequenceItem :=
  { req := { group_name := g, start_state := default, goal := goal }, blend_radius := r }

/-- A robot state with a non-empty joint-position list (an explicit start
state). -/
def explicitState : RobotState :=
  { joint_state := { name := [], position := [1], velocity := [], effort := [] } }

/-- A sequence item carrying an explicit start state. -/
def sampleItemExplicit (g : String) (r : ℚ) (goal : Nat) : MotionSequenceItem :=
  { req := { group_name := g, start_state := explicitState, goal := goal }, blend_radius := r }

/-- A response whose one waypoint carries a given joint-position list and a
constant tip position. -/
def respWith (g : String) (pos : List ℚ) (tip : ℚ × ℚ × ℚ) : MotionPlanResponse :=
  { trajectory :=
      { group_name := g,
        waypoints :=
          [{ stateMsg := { joint_state := { name := [], position := pos, velocity := [], effort := [] } },
             framePos := fun _ => tip }] },
    error_code := 1 }

/-- A planning pipeline that always succeeds with an empty-group trajectory. -/
def alwaysOk : Nat → MotionPlanRequest → PlanOutcome :=
  fun _ _ => { returned := true, error_code := 1, trajectory := { group_name := "g", waypoints := [] } }

/-- A planning pipeline whose `generatePlan` always returns `false`. -/
def alwaysFail : Nat → MotionPlanRequest → PlanOutcome :=
  fun _ _ => { returned := false, error_code := 1, trajectory := default }

/-- A planning pipeline that succeeds on the first call and fails afterwards. -/
def failAfterFirst : Nat → MotionPlanRequest → PlanOutcome :=
  fun k _ =>
    if k = 0 then { returned := true, error_code := 1, trajectory := default }
    else { returned := false, error_code := 1, trajectory := default }

/-! ## Supporting lemmas -/

/-- `sizeSub1` agrees with `(n + (2^64 - 1)) % 2^64`, the two's-complement
wraparound of `n - 1`, on every `n` a C++ `size_t` can hold. -/
lemma sizeSub1_eq_mod (n : Nat) (h : n < U64) : sizeSub1 n = (n + (U64 - 1)) % U64 := by
  have hU : U64 = 18446744073709551616 := rfl
  rw [sizeSub1]
  rcases Nat.eq_zero_or_pos n with h0 | h0
  · subst h0
    simp [hU]
  · rw [if_neg (by omega)]
    rw [hU] at h ⊢
    omega

/-- On a non-empty list of times the de-duplication loop never reaches the
out-of-range branch. -/
lemma dedupLoopM_isSome (ts : List ℚ) (i : Nat) (h : ts ≠ []) : (dedupLoopM ts i).isSome := by
  induction ts, i using dedupLoopM.induct with
  | case1 ts i hcond h1 heq ih =>
    rw [dedupLoopM]
    simp only [if_pos hcond, dif_pos h1, if_pos heq]
    apply ih
    have hlen : (ts.eraseIdx (i + 1)).length = ts.length - 1 := by
      have := List.length_eraseIdx (l := ts) (i := i + 1)
      simp only [h1, if_pos] at this
      omega
    refine List.length_pos.mp ?_
    omega
  | case2 ts i hcond h1 hne ih =>
    rw [dedupLoopM]
    simp only [if_pos hcond, dif_pos h1, if_neg hne]
    exact ih h
  | case3 ts i hcond h1 =>
    exfalso
    have hlen : 1 ≤ ts.length := List.length_pos.mpr h
    rw [sizeSub1, if_neg (by omega)] at hcond
    omega
  | case4 ts i hcond =>
    rw [dedupLoopM]
    rw [if_neg hcond]
    rfl

/-- On the empty list the `size_t` bound underflows and the first waypoint
access is out of range. -/
lemma dedupLoopM_nil : dedupLoopM [] 0 = none := by
  rw [dedupLoopM]
  norm_num [sizeSub1]

/-- Concrete run of the de-duplication loop on three equal times: the removal
advances the index past the surviving duplicate, so two equal times remain. -/
lemma dedupLoopM_triple : dedupLoopM [(1:ℚ), 1, 1] 0 = some [1, 1] := by
  rw [dedupLoopM]
  norm_num [sizeSub1]
  rw [dedupLoopM]
  norm_num [sizeSub1]

/-- The radii table always has exactly one entry per item. -/
lemma extractBlendRadii_length (model : RobotModel) :
    ∀ items : List MotionSequenceItem, (extractBlendRadii model items).length = items.length
  | [] => rfl
  | [_] => rfl
  | a :: b :: rest => by
    rw [extractBlendRadii]
    simp only [List.length_cons]
    rw [extractBlendRadii_length model (b :: rest)]
    simp

/-- One table entry, written with `isInvalidBlendRadii` unfolded into the
three conditions the spec names. -/
lemma radiiEntry_eq (model : RobotModel) (a b : MotionSequenceItem) :
    (if isInvalidBlendRadii model a b then 0 else a.blend_radius) =
      (if a.blend_radius = 0 ∨ a.req.group_name ≠ b.req.group_name
          ∨ model.hasSolver a.req.group_name = false
       then 0 else a.blend_radius) := by
  rw [isInvalidBlendRadii]
  by_cases h0 : a.blend_radius = 0
  · simp [h0]
  · by_cases hg : a.req.group_name = b.req.group_name
    · by_cases hs : model.hasSolver a.req.group_name
      · simp [h0, hg, hs]
      · simp [h0, hg, hs]
    · simp [h0, hg]

/-! ## Claim theorems -/

/-- C2: a successful solve can return a trajectory whose times are not
strictly increasing: for builder output `[1, 1, 1]` the de-duplication loop
removes only the middle duplicate and leaves `[1, 1]`. -/
theorem solve_can_return_equal_consecutive_times :
    solveFull (fun _ => [[1, 1, 1]]) alwaysOk trivialModel [sampleItem "g" 0 0] =
      .ok [[1, 1]] ∧
    ¬ List.Chain' (· < ·) [(1:ℚ), 1] := by
  constructor
  · simp [solveFull, checkForNegativeRadii, checkLastBlendRadiusZero, checkStartStates,
      solveSequenceItems, solveSeqAux, resolvedReq, mkResponse, setStartState,
      getPreviousEndState, effectiveCode, SUCCESS, FAILURE, extractBlendRadii,
      isInvalidBlendRadii, checkForOverlappingRadii, buildAppends, dedupLoopM_triple,
      List.mapM.loop, alwaysOk, trivialModel, sampleItem]
  · norm_num [List.chain'_cons]

/-- C10: the de-duplication loop of `solve` never reaches its out-of-range
branch on a trajectory with at least one waypoint, and on a zero-waypoint
trajectory the `size_t` bound underflows and the first access is out of
range. -/
theorem dedup_oob_unreachable_iff_nonempty :
    (∀ (ts : List ℚ) (i : Nat), ts ≠ [] → ∃ out, dedupLoopM ts i = some out) ∧
    dedupLoopM [] 0 = none := by
  constructor
  · intro ts i h
    obtain ⟨out, hout⟩ := Option.isSome_iff_exists.mp (dedupLoopM_isSome ts i h)
    exact ⟨out, hout⟩
  · exact dedupLoopM_nil

theorem dedup_oob_unreachable_iff_nonempty_witness :
    (([(1:ℚ)] : List ℚ) ≠ []) ∧ (∃ out, dedupLoopM [(1:ℚ)] 0 = some out) :=
  ⟨by simp, dedup_oob_unreachable_iff_nonempty.1 [(1:ℚ)] 0 (by simp)⟩

/-- C1 counterexample: for a one-item list the radii table has length 1, not
`N - 1 = 0`. -/
theorem extractBlendRadii_length_ne_pred :
    (extractBlendRadii trivialModel [sampleItem "g" 0 0]).length ≠
      ([sampleItem "g" 0 0] : List MotionSequenceItem).length - 1 := by
  simp [extractBlendRadii, sampleItem]

/-- C1 amended: for `N ≥ 1` items the table has length `N` (not `N - 1`);
entry `i < N - 1` is item `i`'s declared radius, forced to zero when that
radius is zero, the pair targets different groups, or the group has no
solver; the final entry is always zero. -/
theorem extractBlendRadii_spec (model : RobotModel) (items : List MotionSequenceItem)
    (h : items ≠ []) :
    (extractBlendRadii model items).length = items.length ∧
    (∀ i, i + 1 < items.length →
      (extractBlendRadii model items).getD i 0 =
        (if (items.getD i default).blend_radius = 0
            ∨ (items.getD i default).req.group_name ≠ (items.getD (i + 1) default).req.group_name
            ∨ model.hasSolver ((items.getD i default).req.group_name) = false
         then 0 else (items.getD i default).blend_radius)) ∧
    (extractBlendRadii model items).getD (items.length - 1) 0 = 0 := by
  refine ⟨extractBlendRadii_length model items, ?_, ?_⟩
  · clear h
    induction items with
    | nil => intro i hi; simp at hi
    | cons a rest ih =>
      intro i hi
      match rest, i with
      | b :: rest2, 0 =>
        rw [extractBlendRadii]
        simp only [List.getD_cons_zero]
        exact radiiEntry_eq model a b
      | b :: rest2, j + 1 =>
        rw [extractBlendRadii]
        simp only [List.getD_cons_succ]
        exact ih j (by simpa using hi)
  · induction items with
    | nil => simp at h
    | cons a rest ih =>
      match rest with
      | [] => rfl
      | b :: rest2 =>
        rw [extractBlendRadii]
        have := ih (by simp)
        simpa using this

theorem extractBlendRadii_spec_witness :
    (extractBlendRadii trivialModel [sampleItem "g" 5 0]).length = 1 :=
  ((extractBlendRadii_spec trivialModel [sampleItem "g" 5 0] (by simp)).1).trans (by simp)

/-- C7: the append loop pairs response `i` with the incoming radius
`radii[i-1]` (zero for `i = 0`), i.e. the appended list is the zip of the
trajectories with `0 :: radii`. -/
theorem buildAppends_zip (resps : List MotionPlanResponse) (radii : List ℚ)
    (h : resps.length ≤ radii.length + 1) :
    buildAppends resps radii = (resps.map (fun r => r.trajectory)).zip (0 :: radii) := by
  have hlen : (buildAppends resps radii).length = resps.length := by
    simp [buildAppends]
  have hlen2 : ((resps.map (fun r => r.trajectory)).zip (0 :: radii)).length = resps.length := by
    simp only [List.length_zip, List.length_map, List.length_cons]
    omega
  apply List.ext_getElem (hlen.trans hlen2.symm)
  intro i h1 h2
  rw [hlen] at h1
  simp only [buildAppends, List.getElem_map, List.getElem_range, List.getElem_zip]
  rw [Prod.mk.injEq]
  constructor
  · rw [List.getD_eq_getElem resps default h1]
  · match i with
    | 0 => simp
    | j + 1 =>
      simp only [List.getElem_cons_succ, Nat.add_sub_cancel, if_pos (Nat.succ_pos j)]
      exact List.getD_eq_getElem radii 0 (by omega)

theorem buildAppends_zip_witness :
    buildAppends [respWith "a" [] (0, 0, 0), respWith "b" [] (0, 0, 0)] [7] =
      (([respWith "a" [] (0, 0, 0), respWith "b" [] (0, 0, 0)] :
          List MotionPlanResponse).map (fun r => r.trajectory)).zip (0 :: [7]) :=
  buildAppends_zip _ _ (by simp)

/-- C8: any item with a negative blend radius makes `solve` fail with
`NegativeBlendRadiusException`, for every planner and builder (so before any
planner invocation). -/
theorem solve_negative_radius_fails (build : List (RobotTrajectory × ℚ) → List (List ℚ))
    (p : Nat → MotionPlanRequest → PlanOutcome) (model : RobotModel)
    (items : List MotionSequenceItem) (h : ∃ it ∈ items, it.blend_radius < 0) :
    solveFull build p model items = .err .negativeBlendRadius := by
  obtain ⟨it, hmem, hneg⟩ := h
  have hne : items ≠ [] := by
    rintro rfl
    simp at hmem
  have hchk : checkForNegativeRadii items = .error .negativeBlendRadius := by
    rw [checkForNegativeRadii, if_neg]
    intro hall
    rw [List.all_eq_true] at hall
    have h0 := hall it hmem
    simp only [decide_eq_true_eq] at h0
    exact absurd h0 (not_le.mpr hneg)
  rw [solveFull, if_neg (by simp [List.isEmpty_iff, hne]), hchk]

theorem solve_negative_radius_fails_witness :
    solveFull (fun _ => []) alwaysOk trivialModel [sampleItem "g" (-1) 0] =
      .err .negativeBlendRadius :=
  solve_negative_radius_fails _ _ _ _ ⟨sampleItem "g" (-1) 0, by simp, by norm_num [sampleItem]⟩

/-- C4 counterexample: a one-item list with a negative blend radius does
raise `NegativeBlendRadiusException`, so the structural checks are not
skipped for lists of length at most one. -/
theorem solve_singleton_negative_radius_raises :
    solveFull (fun _ => []) alwaysOk trivialModel [sampleItem "arm" (-2) 0] =
      .err .negativeBlendRadius := by
  rfl

/-- C4 amended: for lists of length at most one only the start-state check is
skipped; a single plan request with zero blend radius whose planner call
succeeds yields exactly one assembled trajectory (builder contract: one
output per single appended segment, with at least one waypoint). -/
theorem solve_singleton_spec :
    (∀ items : List MotionSequenceItem, items.length ≤ 1 → checkStartStates items = .ok ()) ∧
    (∀ (build : List (RobotTrajectory × ℚ) → List (List ℚ))
        (p : Nat → MotionPlanRequest → PlanOutcome) (model : RobotModel)
        (item : MotionSequenceItem),
      item.blend_radius = 0 →
      effectiveCode (p 0 item.req) = SUCCESS →
      (∀ l : List (RobotTrajectory × ℚ), l.length = 1 → (build l).length = 1) →
      (∀ ts, ts ∈ build [((p 0 item.req).trajectory, 0)] → ts ≠ []) →
      ∃ out, solveFull build p model [item] = .ok [out]) := by
  constructor
  · intro items hlen
    rw [checkStartStates, if_pos hlen]
  · intro build p model item hr hp hb hne
    obtain ⟨ts, hts⟩ := List.length_eq_one.mp (hb [((p 0 item.req).trajectory, 0)] rfl)
    have htsne : ts ≠ [] := hne ts (by rw [hts]; simp)
    obtain ⟨out, hout⟩ := Option.isSome_iff_exists.mp (dedupLoopM_isSome ts 0 htsne)
    refine ⟨out, ?_⟩
    simp [solveFull, checkForNegativeRadii, checkLastBlendRadiusZero, checkStartStates,
      solveSequenceItems, solveSeqAux, resolvedReq, mkResponse, setStartState,
      getPreviousEndState, extractBlendRadii, isInvalidBlendRadii,
      checkForOverlappingRadii, buildAppends, hr, hp, hts, hout, List.mapM.loop, SUCCESS,
      List.range_succ, List.range_zero, List.getElem?_cons_zero]

theorem solve_singleton_spec_witness :
    ((sampleItem "g" 0 0).blend_radius = 0) ∧
    (∃ out, solveFull (fun _ => [[2]]) alwaysOk trivialModel [sampleItem "g" 0 0] =
      .ok [out]) :=
  ⟨rfl, solve_singleton_spec.2 _ _ _ _ rfl rfl (fun _ _ => rfl) (fun ts hts => by
    simp only [List.mem_singleton] at hts
    simp [hts])⟩

/-- Fail-fast behaviour of the planning loop: an error result always carries
the constant message and the failing call's effective error code, the trace
of planner calls never exceeds the item count, and a success result solves
every item. -/
lemma solveSeqAux_spec (p : Nat → MotionPlanRequest → PlanOutcome) :
    ∀ (items : List MotionSequenceItem) (k : Nat) (acc : List MotionPlanResponse)
      (tr : List MotionPlanRequest),
      (∀ e, (solveSeqAux p items k acc tr).1 = .error e →
        ∃ c, c ≠ SUCCESS ∧ e = .planningPipeline "Could not solve request\n" c ∧
          (solveSeqAux p items k acc tr).2.length ≤ tr.length + items.length) ∧
      (∀ resps, (solveSeqAux p items k acc tr).1 = .ok resps →
        resps.length = acc.length + items.length ∧
        (solveSeqAux p items k acc tr).2.length = tr.length + items.length) := by
  intro items
  induction items with
  | nil =>
    intro k acc tr
    constructor
    · intro e he
      simp [solveSeqAux] at he
    · intro resps h
      rw [solveSeqAux] at h
      simp only [Except.ok.injEq] at h
      subst h
      simp [solveSeqAux]
  | cons item rest ih =>
    intro k acc tr
    rw [solveSeqAux]
    by_cases hc : effectiveCode (p k (resolvedReq acc item)) ≠ SUCCESS
    · simp only [if_pos hc]
      constructor
      · intro e he
        simp only [Except.error.injEq] at he
        subst he
        refine ⟨_, hc, rfl, ?_⟩
        simp
      · intro resps h
        simp at h
    · simp only [if_neg hc]
      constructor
      · intro e he
        obtain ⟨c, hc2, he2, hlen⟩ := (ih (k + 1) _ _).1 e he
        refine ⟨c, hc2, he2, ?_⟩
        simp only [List.length_append, List.length_cons, List.length_nil] at hlen ⊢
        omega
      · intro resps h
        obtain ⟨h1, h2⟩ := (ih (k + 1) _ _).2 resps h
        simp only [List.length_append, List.length_cons, List.length_nil] at h1 h2 ⊢
        omega

/-- C3 amended: on planner failure `solveSequenceItems` aborts at once with a
`PlanningPipelineException` carrying the underlying effective error code and
a fixed message (the failing index is not part of the exception); no partial
response list escapes, and a success solves every item. -/
theorem solveSequenceItems_fail_fast (p : Nat → MotionPlanRequest → PlanOutcome)
    (items : List MotionSequenceItem) :
    (∀ e, (solveSequenceItems p items).1 = .error e →
      ∃ c, c ≠ SUCCESS ∧ e = .planningPipeline "Could not solve request\n" c ∧
        (solveSequenceItems p items).2.length ≤ items.length) ∧
    (∀ resps, (solveSequenceItems p items).1 = .ok resps →
      resps.length = items.length ∧ (solveSequenceItems p items).2.length = items.length) := by
  have h := solveSeqAux_spec p items 0 [] []
  rw [solveSequenceItems]
  simpa using h

theorem solveSequenceItems_fail_fast_witness :
    ∃ c, c ≠ SUCCESS ∧
      CLMError.planningPipeline "Could not solve request\n" 99999 =
        .planningPipeline "Could not solve request\n" c ∧
      (solveSequenceItems alwaysFail [sampleItem "g" 0 0]).2.length ≤ 1 :=
  (solveSequenceItems_fail_fast alwaysFail [sampleItem "g" 0 0]).1
    (.planningPipeline "Could not solve request\n" 99999) rfl

/-- C3 counterexample: two runs whose first failures are at positions 0 and 1
produce identical exception values, so the exception does not carry the
failing index. -/
theorem planning_error_lacks_failing_index :
    ((solveSequenceItems alwaysFail [sampleItem "g" 0 0]).1 =
      .error (.planningPipeline "Could not solve request\n" 99999)) ∧
    ((solveSequenceItems failAfterFirst [sampleItem "g" 0 0, sampleItem "g" 0 1]).1 =
      .error (.planningPipeline "Could not solve request\n" 99999)) ∧
    ((solveSequenceItems alwaysFail [sampleItem "g" 0 0]).2.length = 1) ∧
    ((solveSequenceItems failAfterFirst [sampleItem "g" 0 0, sampleItem "g" 0 1]).2.length = 2) := by
  refine ⟨rfl, ?_, rfl, ?_⟩ <;>
    simp [solveSequenceItems, solveSeqAux, resolvedReq, mkResponse, effectiveCode, SUCCESS,
      FAILURE, setStartState, getPreviousEndState, failAfterFirst, sampleItem]

/-- A reverse scan finds nothing when no response has the group. -/
lemma getPreviousEndState_none (resps : List MotionPlanResponse) (g : String)
    (h : ∀ r ∈ resps, r.trajectory.group_name ≠ g) :
    getPreviousEndState resps g = none := by
  rw [getPreviousEndState]
  rw [List.find?_eq_none.mpr]
  · rfl
  · intro r hr
    simpa using h r (List.mem_reverse.mp hr)

/-- The reverse scan returns the most recent response of the group: the one
after which no same-group response follows. -/
lemma getPreviousEndState_most_recent (l1 l2 : List MotionPlanResponse)
    (r : MotionPlanResponse) (g : String) (hr : r.trajectory.group_name = g)
    (h2 : ∀ x ∈ l2, x.trajectory.group_name ≠ g) :
    getPreviousEndState (l1 ++ r :: l2) g =
      some (r.trajectory.waypoints.getLastD default) := by
  rw [getPreviousEndState, List.reverse_append, List.reverse_cons, List.append_assoc,
    List.find?_append, List.find?_append]
  rw [List.find?_eq_none.mpr (by intro x hx; simpa using h2 x (List.mem_reverse.mp hx))]
  rw [List.find?_cons_of_pos _ (by simpa using hr)]
  rfl

/-- The ghost trace only ever grows by appending. -/
lemma solveSeqAux_trace_extends (p : Nat → MotionPlanRequest → PlanOutcome) :
    ∀ (items : List MotionSequenceItem) (k : Nat) (acc : List MotionPlanResponse)
      (tr : List MotionPlanRequest),
      ∃ tl, (solveSeqAux p items k acc tr).2 = tr ++ tl := by
  intro items
  induction items with
  | nil =>
    intro k acc tr
    exact ⟨[], by simp [solveSeqAux]⟩
  | cons item rest ih =>
    intro k acc tr
    rw [solveSeqAux]
    by_cases hc : effectiveCode (p k (resolvedReq acc item)) ≠ SUCCESS
    · rw [if_pos hc]
      exact ⟨[resolvedReq acc item], rfl⟩
    · rw [if_neg hc]
      obtain ⟨tl, htl⟩ := ih (k + 1) (acc ++ [mkResponse (p k (resolvedReq acc item))])
        (tr ++ [resolvedReq acc item])
      rw [htl, List.append_assoc]
      exact ⟨[resolvedReq acc item] ++ tl, rfl⟩

/-- The first request passed to the planner is the head item's request with
its start state resolved against the accumulated responses. -/
lemma solveSeqAux_first_req (p : Nat → MotionPlanRequest → PlanOutcome)
    (item : MotionSequenceItem) (rest : List MotionSequenceItem) (k : Nat)
    (acc : List MotionPlanResponse) :
    (solveSeqAux p (item :: rest) k acc []).2.headD default = resolvedReq acc item := by
  rw [solveSeqAux]
  by_cases hc : effectiveCode (p k (resolvedReq acc item)) ≠ SUCCESS
  · rw [if_pos hc]
    rfl
  · rw [if_neg hc]
    obtain ⟨tl, htl⟩ := solveSeqAux_trace_extends p rest (k + 1)
      (acc ++ [mkResponse (p k (resolvedReq acc item))]) ([] ++ [resolvedReq acc item])
    rw [htl]
    rfl

/-- C5: the start state passed to the planner for an item is the final
waypoint of the most recent same-group response of the partial response list
when one exists, and the item's own start state otherwise. -/
theorem start_state_chaining (p : Nat → MotionPlanRequest → PlanOutcome)
    (item : MotionSequenceItem) (rest : List MotionSequenceItem) (k : Nat)
    (acc : List MotionPlanResponse) :
    ((∀ x ∈ acc, x.trajectory.group_name ≠ item.req.group_name) →
      ((solveSeqAux p (item :: rest) k acc []).2.headD default).start_state =
        item.req.start_state) ∧
    (∀ (l1 l2 : List MotionPlanResponse) (r : MotionPlanResponse),
      acc = l1 ++ r :: l2 → r.trajectory.group_name = item.req.group_name →
      (∀ x ∈ l2, x.trajectory.group_name ≠ item.req.group_name) →
      ((solveSeqAux p (item :: rest) k acc []).2.headD default).start_state =
        (r.trajectory.waypoints.getLastD default).stateMsg) := by
  constructor
  · intro h
    rw [solveSeqAux_first_req]
    show setStartState acc item.req.group_name item.req.start_state = item.req.start_state
    rw [setStartState, getPreviousEndState_none acc _ h]
  · intro l1 l2 r hacc hr h2
    rw [solveSeqAux_first_req]
    show setStartState acc item.req.group_name item.req.start_state =
      (r.trajectory.waypoints.getLastD default).stateMsg
    rw [setStartState, hacc, getPreviousEndState_most_recent l1 l2 r _ hr h2]

theorem start_state_chaining_witness :
    ((solveSeqAux alwaysOk [sampleItem "g" 0 5] 0
        [respWith "other" [1] (0, 0, 0), respWith "g" [2] (0, 0, 0)] []).2.headD
          default).start_state =
      ((respWith "g" [2] (0, 0, 0)).trajectory.waypoints.getLastD default).stateMsg :=
  (start_state_chaining alwaysOk (sampleItem "g" 0 5) [] 0
      [respWith "other" [1] (0, 0, 0), respWith "g" [2] (0, 0, 0)]).2
    [respWith "other" [1] (0, 0, 0)] [] (respWith "g" [2] (0, 0, 0)) rfl rfl
    (fun x hx => by simp at hx)

/-- The in-group scan past the first occurrence fails exactly when some
remaining same-group item has a non-empty start state. -/
lemma checkSSGo_false_eq (g : String) :
    ∀ items : List MotionSequenceItem,
      checkSSGo g items false =
        (if (items.filter (fun it => it.req.group_name == g)).any
            (fun it => nonemptyStartState it.req.start_state)
         then .error (.startStateSet g) else .ok ()) := by
  intro items
  induction items with
  | nil => simp [checkSSGo]
  | cons item rest ih =>
    rw [checkSSGo]
    by_cases hg : item.req.group_name = g
    · rw [if_neg (by simp [hg]), if_neg (by simp)]
      by_cases hs : nonemptyStartState item.req.start_state
      · simp [hs, List.filter_cons, hg]
      · rw [if_neg (by simp [hs]), ih]
        simp [List.filter_cons, hg, hs]
    · rw [if_pos (by simp [hg]), ih]
      simp [List.filter_cons, hg]

/-- `checkStartStatesOfGroup` fails exactly on the spec's condition
`laterStartStateOf`. -/
lemma checkStartStatesOfGroup_eq (g : String) :
    ∀ items : List MotionSequenceItem,
      checkStartStatesOfGroup items g =
        (if laterStartStateOf items g then .error (.startStateSet g) else .ok ()) := by
  intro items
  induction items with
  | nil => simp [checkStartStatesOfGroup, checkSSGo, laterStartStateOf]
  | cons item rest ih =>
    rw [checkStartStatesOfGroup, checkSSGo]
    by_cases hg : item.req.group_name = g
    · rw [if_neg (by simp [hg]), if_pos rfl]
      rw [checkSSGo_false_eq]
      simp [laterStartStateOf, List.filter_cons, hg]
    · rw [if_pos (by simp [hg])]
      have hrw : checkSSGo g rest true = checkStartStatesOfGroup rest g := rfl
      rw [hrw, ih]
      simp [laterStartStateOf, List.filter_cons, hg]

/-- The per-group iteration passes exactly when no listed group violates the
start-state rule. -/
lemma checkGroupsGo_ok_iff (items : List MotionSequenceItem) :
    ∀ gs : List String,
      checkGroupsGo items gs = .ok () ↔ ∀ g ∈ gs, laterStartStateOf items g = false := by
  intro gs
  induction gs with
  | nil => simp [checkGroupsGo]
  | cons g rest ih =>
    rw [checkGroupsGo, checkStartStatesOfGroup_eq]
    by_cases hl : laterStartStateOf items g
    · simp [hl]
    · rw [if_neg (by simp [hl])]
      simp [ih, hl]

/-- If some listed group violates the rule, the iteration fails with a
`StartStateSetException` naming a violating group. -/
lemma checkGroupsGo_error (items : List MotionSequenceItem) :
    ∀ gs : List String, (∃ g ∈ gs, laterStartStateOf items g = true) →
      ∃ g, checkGroupsGo items gs = .error (.startStateSet g) ∧
        laterStartStateOf items g = true := by
  intro gs
  induction gs with
  | nil =>
    rintro ⟨g, hg, -⟩
    simp at hg
  | cons g rest ih =>
    rintro ⟨g1, hg1, hl1⟩
    rw [checkGroupsGo, checkStartStatesOfGroup_eq]
    by_cases hl : laterStartStateOf items g
    · exact ⟨g, by simp [hl], hl⟩
    · have hg1r : g1 ∈ rest := by
        rcases List.mem_cons.mp hg1 with h | h
        · subst h
          rw [hl1] at hl
          simp at hl
        · exact h
      obtain ⟨g2, h2, h3⟩ := ih ⟨g1, hg1r, hl1⟩
      refine ⟨g2, ?_, h3⟩
      rw [if_neg (by simp [hl])]
      simpa using h2

/-- Generalized membership in the fold collecting the distinct group names. -/
lemma mem_groupNames_foldl :
    ∀ (items : List MotionSequenceItem) (acc : List String) (g : String),
      (g ∈ items.foldl
          (fun acc it => if it.req.group_name ∈ acc then acc else acc ++ [it.req.group_name])
          acc) ↔
        (g ∈ acc ∨ ∃ it ∈ items, it.req.group_name = g) := by
  intro items
  induction items with
  | nil => simp
  | cons item rest ih =>
    intro acc g
    rw [List.foldl_cons]
    by_cases hmem : item.req.group_name ∈ acc
    · rw [if_pos hmem, ih]
      constructor
      · rintro (h | ⟨it, hit, hgr⟩)
        · exact Or.inl h
        · exact Or.inr ⟨it, List.mem_cons_of_mem item hit, hgr⟩
      · rintro (h | ⟨it, hit, hgr⟩)
        · exact Or.inl h
        · rcases List.mem_cons.mp hit with h2 | h2
          · refine Or.inl ?_
            rw [h2] at hgr
            rw [← hgr]
            exact hmem
          · exact Or.inr ⟨it, h2, hgr⟩
    · rw [if_neg hmem, ih]
      constructor
      · rintro (h | ⟨it, hit, hgr⟩)
        · rcases List.mem_append.mp h with h2 | h2
          · exact Or.inl h2
          · refine Or.inr ⟨item, List.mem_cons_self item rest, ?_⟩
            rw [List.mem_singleton] at h2
            exact h2.symm
        · exact Or.inr ⟨it, List.mem_cons_of_mem item hit, hgr⟩
      · rintro (h | ⟨it, hit, hgr⟩)
        · exact Or.inl (List.mem_append.mpr (Or.inl h))
        · rcases List.mem_cons.mp hit with h2 | h2
          · subst h2
            exact Or.inl (List.mem_append.mpr (Or.inr (by simp [hgr])))
          · exact Or.inr ⟨it, h2, hgr⟩

/-- A group name occurs in `getGroupNames` exactly when some item targets it. -/
lemma mem_getGroupNames (items : List MotionSequenceItem) (g : String) :
    g ∈ getGroupNames items ↔ ∃ it ∈ items, it.req.group_name = g := by
  rw [getGroupNames, mem_groupNames_foldl]
  simp

/-- C9 amended: when the earlier structural checks pass (all radii
non-negative, final radius zero), a list of length at least two in which some
group has a non-first occurrence with an explicit start state makes `solve`
fail with `StartStateSetException`; and when no group violates the rule the
start-state check passes. -/
theorem start_state_conflict_spec (build : List (RobotTrajectory × ℚ) → List (List ℚ))
    (p : Nat → MotionPlanRequest → PlanOutcome) (model : RobotModel)
    (items : List MotionSequenceItem) (hlen : 2 ≤ items.length)
    (hrad : ∀ it ∈ items, 0 ≤ it.blend_radius)
    (hlast : (items.getLastD default).blend_radius = 0) :
    ((∃ g, laterStartStateOf items g = true) →
      ∃ g, solveFull build p model items = .err (.startStateSet g)) ∧
    ((∀ g, laterStartStateOf items g = false) → checkStartStates items = .ok ()) := by
  constructor
  · rintro ⟨g, hg⟩
    have hmem : ∃ it ∈ items, it.req.group_name = g := by
      have hdrop : ((items.filter (fun it => it.req.group_name == g)).drop 1) ≠ [] := by
        intro hnil
        rw [laterStartStateOf, hnil] at hg
        simp at hg
      have hfil : items.filter (fun it => it.req.group_name == g) ≠ [] := by
        intro h0
        rw [h0] at hdrop
        simp at hdrop
      obtain ⟨it, hit⟩ := List.exists_mem_of_ne_nil _ hfil
      exact ⟨it, (List.mem_filter.mp hit).1, by simpa using (List.mem_filter.mp hit).2⟩
    have hgmem : g ∈ getGroupNames items := (mem_getGroupNames items g).mpr hmem
    obtain ⟨g2, heq, hl2⟩ := checkGroupsGo_error items (getGroupNames items) ⟨g, hgmem, hg⟩
    refine ⟨g2, ?_⟩
    have hne : items ≠ [] := by
      intro h0
      rw [h0] at hlen
      simp at hlen
    have hcheck1 : checkForNegativeRadii items = .ok () := by
      rw [checkForNegativeRadii, if_pos]
      rw [List.all_eq_true]
      intro x hx
      simpa using hrad x hx
    have hcheck2 : checkLastBlendRadiusZero items = .ok () := by
      rw [checkLastBlendRadiusZero, if_pos hlast]
    have hcheck3 : checkStartStates items = .error (.startStateSet g2) := by
      rw [checkStartStates, if_neg (by omega), heq]
    rw [solveFull, if_neg (by simp [List.isEmpty_iff, hne]), hcheck1, hcheck2, hcheck3]
  · intro hall
    rw [checkStartStates]
    by_cases hl : items.length ≤ 1
    · rw [if_pos hl]
    · rw [if_neg hl]
      exact (checkGroupsGo_ok_iff items (getGroupNames items)).mpr (fun g _ => hall g)

theorem start_state_conflict_spec_witness :
    ∃ g, solveFull (fun _ => []) alwaysOk trivialModel
        [sampleItem "g" 0 0, sampleItemExplicit "g" 0 1] = .err (.startStateSet g) :=
  (start_state_conflict_spec (fun _ => []) alwaysOk trivialModel
      [sampleItem "g" 0 0, sampleItemExplicit "g" 0 1] (by simp)
      (by
        intro it hit
        simp only [List.mem_cons, List.not_mem_nil, or_false] at hit
        rcases hit with rfl | rfl <;> norm_num [sampleItem, sampleItemExplicit])
      rfl).1 ⟨"g", rfl⟩

/-- C9 counterexample: a list whose second same-group item has an explicit
start state but whose first item also has a negative radius fails with
`NegativeBlendRadiusException`, not `StartStateSetException`. -/
theorem start_state_conflict_preempted :
    laterStartStateOf [sampleItem "g" (-1) 0, sampleItemExplicit "g" 0 1] "g" = true ∧
    solveFull (fun _ => []) alwaysOk trivialModel
        [sampleItem "g" (-1) 0, sampleItemExplicit "g" 0 1] = .err .negativeBlendRadius ∧
    isStartStateConflict (solveFull (fun _ => []) alwaysOk trivialModel
        [sampleItem "g" (-1) 0, sampleItemExplicit "g" 0 1]) = false := by
  refine ⟨rfl, ?_, ?_⟩ <;> rfl

/-- The overlap loop passes exactly when no index in its window triggers
`checkRadiiForOverlap`. -/
lemma overlapGo_ok_iff (model : RobotModel) (resps : List MotionPlanResponse)
    (radii : List ℚ) :
    ∀ (fuel i : Nat),
      overlapGo model resps radii fuel i = .ok () ↔
        ∀ j, i ≤ j → j < i + fuel →
          checkRadiiForOverlap model (resps.getD j default).trajectory (radii.getD j 0)
            (resps.getD (j + 1) default).trajectory (radii.getD (j + 1) 0) = false := by
  intro fuel
  induction fuel with
  | zero =>
    intro i
    constructor
    · intro _ j h1 h2
      omega
    · intro _
      rfl
  | succ fuel ih =>
    intro i
    rw [overlapGo]
    by_cases hc : checkRadiiForOverlap model (resps.getD i default).trajectory
        (radii.getD i 0) (resps.getD (i + 1) default).trajectory (radii.getD (i + 1) 0) = true
    · rw [if_pos hc]
      constructor
      · intro h
        exact absurd h (by simp)
      · intro hall
        have := hall i le_rfl (by omega)
        rw [hc] at this
        exact absurd this (by simp)
    · rw [if_neg hc, ih (i + 1)]
      rw [Bool.not_eq_true] at hc
      constructor
      · intro hall j h1 h2
        rcases Nat.eq_or_lt_of_le h1 with h3 | h3
        · rw [← h3]
          exact hc
        · exact hall j (by omega) (by omega)
      · intro hall j h1 h2
        exact hall j (by omega) (by omega)

/-- A failure of the overlap loop names an index in its window whose pair
triggers `checkRadiiForOverlap`. -/
lemma overlapGo_error (model : RobotModel) (resps : List MotionPlanResponse)
    (radii : List ℚ) :
    ∀ (fuel i : Nat) (e : CLMError),
      overlapGo model resps radii fuel i = .error e →
        ∃ j, i ≤ j ∧ j < i + fuel ∧ e = .overlappingBlendRadii j ∧
          checkRadiiForOverlap model (resps.getD j default).trajectory (radii.getD j 0)
            (resps.getD (j + 1) default).trajectory (radii.getD (j + 1) 0) = true := by
  intro fuel
  induction fuel with
  | zero =>
    intro i e h
    simp [overlapGo] at h
  | succ fuel ih =>
    intro i e h
    rw [overlapGo] at h
    by_cases hc : checkRadiiForOverlap model (resps.getD i default).trajectory
        (radii.getD i 0) (resps.getD (i + 1) default).trajectory (radii.getD (i + 1) 0) = true
    · rw [if_pos hc] at h
      simp only [Except.error.injEq] at h
      exact ⟨i, le_rfl, by omega, h.symm, hc⟩
    · rw [if_neg hc] at h
      obtain ⟨j, h1, h2, h3, h4⟩ := ih (i + 1) e h
      exact ⟨j, by omega, by omega, h3, h4⟩

/-- A squared distance is non-negative. -/
lemma sqDist_nonneg (a b : ℚ × ℚ × ℚ) : 0 ≤ sqDist a b := by
  rw [sqDist]
  positivity

/-- The rational test of `checkRadiiForOverlap` is the source's Euclidean
comparison `‖pA - pB‖ ≤ rA + rB`, stated with a real square root. -/
lemma checkRadiiForOverlap_iff_sqrt (model : RobotModel) (tA : RobotTrajectory) (rA : ℚ)
    (tB : RobotTrajectory) (rB : ℚ) :
    checkRadiiForOverlap model tA rA tB rB = true ↔
      (tA.group_name = tB.group_name ∧ rA + rB ≠ 0 ∧
        Real.sqrt ((sqDist (lastTipPos tA (model.tipFrame tA.group_name))
            (lastTipPos tB (model.tipFrame tA.group_name)) : ℚ) : ℝ) ≤
          ((rA + rB : ℚ) : ℝ)) := by
  rw [checkRadiiForOverlap]
  by_cases hg : tA.group_name = tB.group_name
  · by_cases hz : rA + rB = 0
    · simp [hg, hz]
    · rw [if_neg (by simp [hg]), if_neg hz, Real.sqrt_le_iff]
      simp only [Bool.and_eq_true, decide_eq_true_eq]
      constructor
      · rintro ⟨h1, h2⟩
        refine ⟨hg, hz, by exact_mod_cast h1, ?_⟩
        push_cast
        exact_mod_cast h2
      · rintro ⟨-, -, h1, h2⟩
        refine ⟨by exact_mod_cast h1, ?_⟩
        push_cast at h2
        exact_mod_cast h2
  · rw [if_pos (by simp [hg])]
    simp [hg]

/-- C6: the overlap check is a no-op below three responses; for three or more
it fails naming a pair index exactly when some window index has same-group
neighbours, a nonzero radii sum, and final-waypoint tip positions at
Euclidean distance at most that sum; every named index satisfies the
condition. -/
theorem checkForOverlappingRadii_spec (model : RobotModel)
    (resps : List MotionPlanResponse) (radii : List ℚ) :
    (resps.length < 3 → checkForOverlappingRadii model resps radii = .ok ()) ∧
    (3 ≤ resps.length →
      (((∃ i, checkForOverlappingRadii model resps radii =
            .error (.overlappingBlendRadii i)) ↔
        (∃ i, i < resps.length - 2 ∧
          ((resps.getD i default).trajectory.group_name =
              (resps.getD (i + 1) default).trajectory.group_name ∧
            radii.getD i 0 + radii.getD (i + 1) 0 ≠ 0 ∧
            Real.sqrt ((sqDist
                (lastTipPos (resps.getD i default).trajectory
                  (model.tipFrame (resps.getD i default).trajectory.group_name))
                (lastTipPos (resps.getD (i + 1) default).trajectory
                  (model.tipFrame (resps.getD i default).trajectory.group_name)) : ℚ) : ℝ) ≤
              ((radii.getD i 0 + radii.getD (i + 1) 0 : ℚ) : ℝ)))) ∧
      (∀ i, checkForOverlappingRadii model resps radii =
          .error (.overlappingBlendRadii i) →
        (i < resps.length - 2 ∧
          ((resps.getD i default).trajectory.group_name =
              (resps.getD (i + 1) default).trajectory.group_name ∧
            radii.getD i 0 + radii.getD (i + 1) 0 ≠ 0 ∧
            Real.sqrt ((sqDist
                (lastTipPos (resps.getD i default).trajectory
                  (model.tipFrame (resps.getD i default).trajectory.group_name))
                (lastTipPos (resps.getD (i + 1) default).trajectory
                  (model.tipFrame (resps.getD i default).trajectory.group_name)) : ℚ) : ℝ) ≤
              ((radii.getD i 0 + radii.getD (i + 1) 0 : ℚ) : ℝ)))))) := by
  constructor
  · intro h3
    rw [checkForOverlappingRadii]
    by_cases h1 : resps.isEmpty
    · rw [if_pos h1]
    · rw [if_neg h1, if_pos h3]
  · intro h3
    have hne : ¬(resps.isEmpty = true) := by
      rw [List.isEmpty_iff]
      intro h0
      rw [h0] at h3
      simp at h3
    have hrw : checkForOverlappingRadii model resps radii =
        overlapGo model resps radii (resps.length - 2) 0 := by
      rw [checkForOverlappingRadii, if_neg hne, if_neg (by omega)]
    constructor
    · constructor
      · rintro ⟨i, herr⟩
        rw [hrw] at herr
        obtain ⟨j, -, h2, h3e, h4⟩ :=
          overlapGo_error model resps radii (resps.length - 2) 0 _ herr
        have hij : i = j := by
          injection h3e
        subst hij
        exact ⟨i, by omega, (checkRadiiForOverlap_iff_sqrt model _ _ _ _).mp h4⟩
      · rintro ⟨i, hi, hP⟩
        have hc := (checkRadiiForOverlap_iff_sqrt model
          (resps.getD i default).trajectory (radii.getD i 0)
          (resps.getD (i + 1) default).trajectory (radii.getD (i + 1) 0)).mpr hP
        rw [hrw]
        cases hres : overlapGo model resps radii (resps.length - 2) 0 with
        | error e =>
          obtain ⟨j, -, -, h3e, -⟩ :=
            overlapGo_error model resps radii (resps.length - 2) 0 e hres
          subst h3e
          exact ⟨j, rfl⟩
        | ok val =>
          exfalso
          cases val
          have := (overlapGo_ok_iff model resps radii (resps.length - 2) 0).mp hres i
            (by omega) (by omega)
          rw [hc] at this
          exact absurd this (by simp)
    · intro i herr
      rw [hrw] at herr
      obtain ⟨j, -, h2, h3e, h4⟩ :=
        overlapGo_error model resps radii (resps.length - 2) 0 _ herr
      have hij : i = j := by
        injection h3e
      subst hij
      exact ⟨by omega, (checkRadiiForOverlap_iff_sqrt model _ _ _ _).mp h4⟩

theorem checkForOverlappingRadii_spec_witness :
    ∃ i, checkForOverlappingRadii trivialModel
        [respWith "g" [] (0, 0, 0), respWith "g" [] (0, 0, 0), respWith "g" [] (0, 0, 0)]
        [5, 5, 0] = .error (.overlappingBlendRadii i) :=
  ((checkForOverlappingRadii_spec trivialModel
      [respWith "g" [] (0, 0, 0), respWith "g" [] (0, 0, 0), respWith "g" [] (0, 0, 0)]
      [5, 5, 0]).2 (by simp)).1.mpr
    ⟨0, by simp, rfl, by norm_num, by
      have h0 : sqDist
          (lastTipPos (([respWith "g" [] (0, 0, 0), respWith "g" [] (0, 0, 0),
              respWith "g" [] (0, 0, 0)].getD 0 default).trajectory)
            (trivialModel.tipFrame (([respWith "g" [] (0, 0, 0), respWith "g" [] (0, 0, 0),
              respWith "g" [] (0, 0, 0)].getD 0 default).trajectory.group_name)))
          (lastTipPos (([respWith "g" [] (0, 0, 0), respWith "g" [] (0, 0, 0),
              respWith "g" [] (0, 0, 0)].getD 1 default).trajectory)
            (trivialModel.tipFrame (([respWith "g" [] (0, 0, 0), respWith "g" [] (0, 0, 0),
              respWith "g" [] (0, 0, 0)].getD 0 default).trajectory.group_name))) = 0 := by
        simp [sqDist, lastTipPos, respWith, trivialModel]
      rw [h0]
      norm_num⟩

end PilzCLM
